import Mathlib

/-!
Formal model of the locale purge planner and of the package-manager
cleanup command drivers found in bleachbit's `Unix.py`.

The pure string and list computations are translated directly from the
Python source.  Effectful collaborators are passed in explicitly:

* the filesystem seen by rule evaluation is a record of an `isdir` test
  and a `glob` enumeration;
* the child process driven by a cleanup command is represented by the
  finite list of output lines it produces before end of stream, together
  with its exit status (`poll()` is `None` while lines remain and returns
  the exit status once the stream is exhausted);
* the directory-size measurement `FileUtilities.getsizedir` is an oracle
  indexed by the number of calls made so far, so that re-measuring after
  a lock-contention line is observable.
-/

deriving instance DecidableEq for Except

/-- Python `str.upper()` over the characters of a string. -/
def upperStr (s : String) : String := String.mk (s.data.map Char.toUpper)

/-- Split a character list at every occurrence of a separator character,
with Python `str.split(sep)` semantics: splitting the empty string gives
one empty part, and separators at the ends give empty parts. -/
def splitOnChar (sep : Char) : List Char → List (List Char)
| [] => [[]]
| c :: rest =>
  let r := splitOnChar sep rest
  if c == sep then [] :: r
  else
    match r with
    | h :: t => (c :: h) :: t
    | [] => [[c]]

/-- Numeric value of a non-empty all-digit character list. -/
def digitsVal (cs : List Char) : Option Nat :=
  if cs.isEmpty then none
  else if cs.all Char.isDigit then
    some (cs.foldl (fun acc c => acc * 10 + (c.toNat - 48)) 0)
  else none

/-- Character class of the regex class `[a-zA-Z0-9-]` used by the optional
encoding suffix of the locale pattern in `locale_to_language`. -/
def isEncChar (c : Char) : Bool := c.isAlphanum || c == '-'

/-- Character class `[0-9.]` used by the size-token captures of the apt
scanners (`apt_autoclean`, `apt_autoremove`). -/
def isDigitDot (c : Char) : Bool := c.isDigit || c == '.'

/-- Tail of the locale regex: `(@[a-zA-Z]*)?$`. -/
def matchVariant : List Char → Bool
| [] => true
| c :: rest => c == '@' && rest.all Char.isAlpha

/-- Tail of the locale regex: `(\.[a-zA-Z0-9-]*)?(@[a-zA-Z]*)?$`.  The
character classes of the three optional groups are pairwise disjoint at
their first character, so the greedy star needs no backtracking. -/
def matchEncoding : List Char → Bool
| [] => matchVariant []
| c :: rest => if c = '.' then matchVariant (rest.dropWhile isEncChar) else matchVariant (c :: rest)

/-- Attempt to match `[a-zA-Z]{k}` then the encoding/variant tail. -/
def tryRegion (cs : List Char) (k : Nat) : Bool :=
  (cs.take k).length == k && (cs.take k).all Char.isAlpha && matchEncoding (cs.drop k)

/-- The region group present at the head: `[_-][a-zA-Z]{2,4}` then the rest. -/
def regionHere : List Char → Bool
| [] => false
| c :: rest => (c == '_' || c == '-') && (tryRegion rest 4 || tryRegion rest 3 || tryRegion rest 2)

/-- Tail of the locale regex after the core group:
`([_-][a-zA-Z]{2,4})?(\.[a-zA-Z0-9-]*)?(@[a-zA-Z]*)?$`. -/
def matchRegion (cs : List Char) : Bool :=
  regionHere cs || matchEncoding cs

/-- Translation of `locale_to_language` from `Unix.py`: the special Klingon
token is returned unchanged, otherwise the string is matched against
`^([a-z]{2,3})([_-][a-zA-Z]{2,4})?(\.[a-zA-Z0-9-]*)?(@[a-zA-Z]*)?$` and the
first captured group is returned; a non-match raises `ValueError`.  The
greedy `{2,3}` quantifier tries a 3-letter core before a 2-letter core. -/
def locale_to_language (locale : String) : Except String String :=
  if locale = "klingon" then .ok locale
  else
    let cs := locale.data
    if (cs.take 3).length == 3 && (cs.take 3).all Char.isLower && matchRegion (cs.drop 3) then
      .ok (String.mk (cs.take 3))
    else if (cs.take 2).length == 2 && (cs.take 2).all Char.isLower && matchRegion (cs.drop 2) then
      .ok (String.mk (cs.take 2))
    else
      .error ("Invalid locale_code '" ++ locale ++ "'")

/-- Modelled from the spec: `FileUtilities.human_to_bytes` is an external
collaborator whose code is not under src/.  Section 6 of the spec fixes its
contract as converting an uppercased human-readable size token such as
"1165KB" or "74.7MB" to raw bytes under the decimal convention
(KB = 1000, MB = 1000000, GB = 1000000000, ...). -/
def human_to_bytes (token : String) : Option Nat :=
  let cs := token.data
  let num := cs.takeWhile isDigitDot
  let unit := cs.drop num.length
  let mult : Option Nat :=
    if unit = ['B'] then some 1
    else if unit = ['K', 'B'] then some 1000
    else if unit = ['M', 'B'] then some 1000000
    else if unit = ['G', 'B'] then some 1000000000
    else if unit = ['T', 'B'] then some 1000000000000
    else none
  match mult with
  | none => none
  | some m =>
    match splitOnChar '.' num with
    | [intpart] =>
      match digitsVal intpart with
      | some iv => some (iv * m)
      | none => none
    | [intpart, fracpart] =>
      match digitsVal intpart, digitsVal fracpart with
      | some iv, some fv => some ((iv * 10 ^ fracpart.length + fv) * m / 10 ^ fracpart.length)
      | _, _ => none
    | _ => none

/-- Attempt to match `\[([0-9.]+[a-zA-Z]{2})\]` at the head of the list and
return the captured token.  The classes `[0-9.]` and `[a-zA-Z]` are
disjoint, so the greedy plus needs no backtracking. -/
def bracket_at : List Char → Option String
| '[' :: rest =>
  let num := rest.takeWhile isDigitDot
  if num.isEmpty then none
  else
    match rest.drop num.length with
    | a :: b :: ']' :: _ =>
      if a.isAlpha && b.isAlpha then some (String.mk (num ++ [a, b])) else none
    | _ => none
| _ => none

/-- Capture of the greedy `.*\[([0-9.]+[a-zA-Z]{2})\]`: the bracketed token
at the rightmost position where the bracket expression matches. -/
def lastBracket : List Char → Option String
| [] => none
| c :: rest =>
  match lastBracket rest with
  | some tok => some tok
  | none => bracket_at (c :: rest)

/-- Translation of the `apt_autoclean` line pattern
`^Del .*\[([0-9.]+[a-zA-Z]{2})\]` (Python `re.search`, anchored at the
start): the line must begin with "Del " and the captured size token is the
one of the last matching bracket group. -/
def del_match (line : String) : Option String :=
  if ("Del ".data).isPrefixOf line.data then lastBracket (line.data.drop 4) else none

/-- Literal tail of the `apt_autoremove` byte-extraction pattern. -/
def freed_suffix : List Char := " disk space will be freed".data

/-- Attempt to match `, ([0-9.]+[a-zA-Z]{2}) disk space will be freed` at
the head of the list and return the captured token. -/
def autoremove_at : List Char → Option String
| ',' :: ' ' :: rest =>
  let num := rest.takeWhile isDigitDot
  if num.isEmpty then none
  else
    match rest.drop num.length with
    | a :: b :: rest2 =>
      if a.isAlpha && b.isAlpha && freed_suffix.isPrefixOf rest2 then
        some (String.mk (num ++ [a, b]))
      else none
    | _ => none
| _ => none

/-- Leftmost match of the `apt_autoremove` pattern (Python `re.search`
semantics for an unanchored pattern). -/
def firstCommaMatch : List Char → Option String
| [] => none
| c :: rest =>
  match autoremove_at (c :: rest) with
  | some tok => some tok
  | none => firstCommaMatch rest

/-- Byte-extraction capture of one `apt_autoremove` output line. -/
def autoremove_match (line : String) : Option String :=
  firstCommaMatch line.data

/-- Read loop of `apt_autoclean`: lines are consumed in order; a line
starting with "E: " raises with that line; a line matching the Del pattern
adds the converted size token to the running total; once the stream is
exhausted (`readline` returns "" and `poll()` is no longer `None`) the
accumulated total is returned.  A failing size conversion propagates the
collaborator's `ValueError`. -/
def apt_scan_loop : List String → Nat → Except String Nat
| [], total_bytes => .ok total_bytes
| line :: rest, total_bytes =>
  if ("E: ".data).isPrefixOf line.data then .error line
  else
    match del_match line with
    | some pkg_bytes_str =>
      match human_to_bytes (upperStr pkg_bytes_str) with
      | some pkg_bytes => apt_scan_loop rest (total_bytes + pkg_bytes)
      | none => .error ("ValueError: invalid size token '" ++ pkg_bytes_str ++ "'")
    | none => apt_scan_loop rest total_bytes

/-- Translation of `apt_autoclean` from `Unix.py`.  The child process is
represented by its output lines and its exit status; the source never
consults the exit status beyond detecting that the process has exited. -/
def apt_autoclean (exe_found : Bool) (lines : List String) (_returncode : Int) :
    Except String Nat :=
  if !exe_found then .error "Executable not found: apt-get"
  else apt_scan_loop lines 0

/-- Read loop of `apt_autoremove`: identical to `apt_autoclean` except for
the byte-extraction pattern `, ([0-9.]+[a-zA-Z]{2}) disk space will be freed`. -/
def autoremove_loop : List String → Nat → Except String Nat
| [], total_bytes => .ok total_bytes
| line :: rest, total_bytes =>
  if ("E: ".data).isPrefixOf line.data then .error line
  else
    match autoremove_match line with
    | some pkg_bytes_str =>
      match human_to_bytes (upperStr pkg_bytes_str) with
      | some pkg_bytes => autoremove_loop rest (total_bytes + pkg_bytes)
      | none => .error ("ValueError: invalid size token '" ++ pkg_bytes_str ++ "'")
    | none => autoremove_loop rest total_bytes

/-- Translation of `apt_autoremove` from `Unix.py`. -/
def apt_autoremove (exe_found : Bool) (lines : List String) (_returncode : Int) :
    Except String Nat :=
  if !exe_found then .error "Executable not found: apt-get"
  else autoremove_loop lines 0

/-- Keys of `Locales.native_locale_names`, in source order. -/
def native_locale_names_keys : List String :=
  ["ar", "ast", "be", "bg", "bn", "bs", "ca", "cs", "da", "de", "el", "en",
   "en_AU", "en_GB", "eo", "es", "et", "fa", "fi", "fo", "fr", "gl", "he",
   "hi", "hr", "hu", "hy", "ia", "id", "it", "iw", "ku", "ky", "ja", "jv",
   "lt", "ko", "mr", "ms", "my", "nb", "nds", "nl", "no", "pl", "pt", "ro",
   "ru", "sk", "sl", "sr", "sv", "tr", "ug", "uk", "vi", "zh"]

/-- Translation of `Locales.localization_paths` from `Unix.py`.  The
catalog key set (`Locales.native_locale_names.keys()`) and the discovered
(locale, path) pairs produced by `handle_path` over the registered rule
trees are passed in explicitly; an empty keep-list raises before anything
is yielded, otherwise the purgeable set is the catalog minus the keep-list
and each discovered path is yielded exactly when its locale is purgeable. -/
def localization_paths (catalog_keys locales_to_keep : List String)
    (discovered : List (String × String)) : Except String (List String) :=
  if locales_to_keep.isEmpty then .error "Found no locales to keep"
  else
    let purgeable_locales := catalog_keys.filter (fun l => !(locales_to_keep.contains l))
    .ok ((discovered.filter (fun lp => purgeable_locales.contains lp.1)).map (fun lp => lp.2))

/-- Node kind seen by `handle_path`: the source compares `nodeType` against
`ELEMENT_NODE` and silently skips every non-element node. -/
inductive NodeType where
  | element
  | other
deriving DecidableEq

/-- Minimal XML node as consumed by `Locales.handle_path`: a node type, a
tag name, the `location` and `filter` attributes (the empty string when the
attribute is absent, as with `getAttribute`) and the child nodes. -/
inductive XmlNode where
  | mk (nodeType : NodeType) (nodeName : String) (location : String)
       (filterAttr : String) (childNodes : List XmlNode)

/-- Filesystem interface used by rule evaluation: `os.path.isdir` and
`glob.iglob`. -/
structure Fs where
  isdir : String → Bool
  glob : String → List String

/-- Concatenation of the accumulated parent prefix with a node's location,
with a trailing separator ensured, as in `handle_path`. -/
def resolve (path location : String) : String :=
  let p := path ++ location
  if ("/".data).isSuffixOf p.data then p else p ++ "/"

/-- Python `os.path.split(pathname)[1]`: the part after the last slash. -/
def basename (pathname : String) : List Char :=
  (splitOnChar '/' pathname.data).getLastD []

/-- Python slice `filename[prefixlen:postfixlen]` where `postfixlen` is
`None` when the filter suffix is empty and negative otherwise. -/
def slice_locale (filename : List Char) (prefixlen postfixlen : Nat) : List Char :=
  if postfixlen = 0 then filename.drop prefixlen
  else (filename.take (filename.length - postfixlen)).drop prefixlen

/-- Glob-match processing of `handle_path`: each directory entry matching
`prefix*suffix` has the prefix and suffix stripped from its basename and
the remainder normalized by `locale_to_language`; entries whose remainder
is not a valid locale are silently skipped. -/
def glob_pairs (entries : List String) (prefixlen postfixlen : Nat) :
    List (String × String) :=
  entries.filterMap (fun subpath =>
    match locale_to_language (String.mk (slice_locale (basename subpath) prefixlen postfixlen)) with
    | .ok locale => some (locale, subpath)
    | .error _ => none)

mutual

/-- Translation of the recursive `Locales.handle_path` from `Unix.py`:
non-element nodes yield nothing; a wrong tag name or a missing location
attribute raises; a non-existent resolved directory yields nothing for the
node and its descendants; a declared filter (or the implicit "*" for a
childless node without one) must contain the wildcard exactly once, and
its matches are followed by the recursive results of the child nodes. -/
def handle_path (fs : Fs) (path : String) : XmlNode → Except String (List (String × String))
| XmlNode.mk nodeType nodeName location filterAttr childNodes =>
  if nodeType ≠ NodeType.element then .ok []
  else if nodeName ≠ "path" then
    .error ("Invalid node '" ++ nodeName ++ "', expected 'path'")
  else if location = "" then .error "Path node without location attribute"
  else
    let path2 := resolve path location
    if fs.isdir path2 = false then .ok []
    else
      let userfilter := if filterAttr.data.isEmpty && childNodes.isEmpty then "*" else filterAttr
      if !userfilter.data.isEmpty && userfilter.data.count '*' != 1 then
        .error ("Filter string '" ++ userfilter ++ "' must contain the placeholder * exactly once")
      else
        let fromFilter :=
          if userfilter.data.isEmpty then []
          else
            let parts := splitOnChar '*' userfilter.data
            glob_pairs (fs.glob (path2 ++ userfilter)) (parts.headD []).length (parts.getLastD []).length
        match handle_children fs path2 childNodes with
        | .ok rest => .ok (fromFilter ++ rest)
        | .error e => .error e

/-- Recursion of `handle_path` over the child nodes, concatenating their
results in order. -/
def handle_children (fs : Fs) (path : String) : List XmlNode → Except String (List (String × String))
| [] => .ok []
| child :: rest =>
  match handle_path fs path child with
  | .error e => .error e
  | .ok r =>
    match handle_children fs path rest with
    | .error e => .error e
    | .ok rs => .ok (r ++ rs)

end

/-- Python `-1 != s.find(sub)`: substring containment. -/
def containsSubAux (sub : List Char) : List Char → Bool
| [] => sub.isEmpty
| c :: rest => sub.isPrefixOf (c :: rest) || containsSubAux sub rest

/-- Substring containment on strings. -/
def containsSub (s sub : String) : Bool := containsSubAux sub.data s.data

/-- Read loop of `yum_clean`: lines longer than two characters are
remembered as the diagnostic line; the two fatal substrings raise with the
triggering line; a lock-contention line re-baselines the "before" size
from the directory's current size.  The state is the number of
`getsizedir` calls made so far, the current baseline and the remembered
diagnostic line. -/
def yum_loop (getsizedir : Nat → Int) : List String → Nat → Int → String →
    Except String (Nat × Int × String)
| [], calls, old_size, non_blank_line => .ok (calls, old_size, non_blank_line)
| line :: rest, calls, old_size, non_blank_line =>
  let nb := if line.length > 2 then line else non_blank_line
  if containsSub line "You need to be root" then .error line
  else if containsSub line "Cannot remove rpmdb file" then .error line
  else if containsSub line "Another app is currently holding" then
    yum_loop getsizedir rest (calls + 1) (getsizedir calls) nb
  else yum_loop getsizedir rest calls old_size nb

/-- Translation of `yum_clean` from `Unix.py`: a pre-flight guard on
`/var/run/yum.pid`, an executable lookup, a baseline size measurement of
`/var/cache/yum`, the read loop, a post-exit failure check carrying the
remembered diagnostic line, and finally the before-minus-after size
difference. -/
def yum_clean (pid_exists exe_found : Bool) (getsizedir : Nat → Int)
    (lines : List String) (returncode : Int) : Except String Int :=
  if pid_exists then
    .error "Yum cannot be cleaned because it is currently running.  Close it, and try again."
  else if !exe_found then .error "Executable not found: yum"
  else
    match yum_loop getsizedir lines 1 (getsizedir 0) "" with
    | .error e => .error e
    | .ok (calls, old_size, non_blank_line) =>
      if returncode > 0 then .error non_blank_line
      else .ok (old_size - getsizedir calls)

/-- Last line longer than two characters, with a default: the value of
`yum_clean`'s remembered diagnostic line after the whole stream. -/
def last_long_line (lines : List String) (dflt : String) : String :=
  lines.foldl (fun acc line => if line.length > 2 then line else acc) dflt

/-- Byte contribution of one `apt_autoclean` output line: the converted
size token of a line matching the Del pattern, zero otherwise. -/
def line_bytes (line : String) : Nat :=
  ((del_match line).bind (fun tok => human_to_bytes (upperStr tok))).getD 0

/-- Number of lock-contention diagnostic lines in a yum output stream:
each one makes `yum_clean` re-baseline its "before" measurement. -/
def yum_lock_count (lines : List String) : Nat :=
  lines.countP (fun l => containsSub l "Another app is currently holding")

/-!  Helper lemmas.  -/

/-- Membership in a filtered list, in executable `contains` form. -/
theorem contains_filter (l : List String) (p : String → Bool) (a : String) :
    (l.filter p).contains a = (l.contains a && p a) := by
  induction l with
  | nil => simp
  | cons x xs ih =>
    rw [List.filter_cons]
    by_cases hx : p x = true
    · rw [if_pos hx, List.contains_cons, List.contains_cons, ih]
      by_cases hax : a = x
      · subst hax; simp [hx]
      · have hbx : (a == x) = false := beq_eq_false_iff_ne.mpr hax
        simp [hbx]
    · rw [if_neg hx, ih, List.contains_cons]
      by_cases hax : a = x
      · subst hax
        simp only [Bool.not_eq_true] at hx
        simp [hx]
      · have hbx : (a == x) = false := beq_eq_false_iff_ne.mpr hax
        simp [hbx]

/-- Dropping while a predicate holds jumps over a block that satisfies it. -/
theorem dropWhile_append_all (xs ys : List Char) (p : Char → Bool) (h : xs.all p = true) :
    (xs ++ ys).dropWhile p = ys.dropWhile p := by
  induction xs with
  | nil => rfl
  | cons a t ih =>
    simp only [List.all_cons, Bool.and_eq_true] at h
    simp only [List.cons_append, List.dropWhile_cons, h.1, if_true]
    exact ih h.2

/-- A non-empty string has a non-empty character list. -/
theorem string_data_ne_nil {s : String} (h : s ≠ "") : s.data ≠ [] := by
  intro hd
  apply h
  cases s with
  | mk d => cases hd; rfl

/-!  C1.  -/

/-- C1: for every non-empty keep-set, every catalog key set and every
sequence of discovered (locale, path) pairs, the purge planner yields a
discovered path exactly when its locale code is contained in the catalog
keys but not in the keep-set; in particular, when the keep-set contains
every catalog key, no path is yielded at all. -/
theorem purge_decision_iff (catalog_keys locales_to_keep : List String)
    (discovered : List (String × String)) (h : locales_to_keep ≠ []) :
    localization_paths catalog_keys locales_to_keep discovered =
      .ok ((discovered.filter
        (fun lp => catalog_keys.contains lp.1 && !(locales_to_keep.contains lp.1))).map
        (fun lp => lp.2)) ∧
    ((∀ l ∈ catalog_keys, l ∈ locales_to_keep) →
      localization_paths catalog_keys locales_to_keep discovered = .ok []) := by
  have hne : locales_to_keep.isEmpty = false := List.isEmpty_eq_false.mpr h
  have hfilter : discovered.filter
        (fun lp => (catalog_keys.filter (fun l => !(locales_to_keep.contains l))).contains lp.1)
      = discovered.filter
        (fun lp => catalog_keys.contains lp.1 && !(locales_to_keep.contains lp.1)) := by
    apply List.filter_congr
    intro lp _
    rw [contains_filter]
  constructor
  · simp only [localization_paths, hne, Bool.false_eq_true, if_false]
    rw [hfilter]
  · intro hall
    simp only [localization_paths, hne, Bool.false_eq_true, if_false]
    rw [hfilter]
    have hnil : discovered.filter
        (fun lp => catalog_keys.contains lp.1 && !(locales_to_keep.contains lp.1)) = [] := by
      rw [List.filter_eq_nil_iff]
      intro lp _ hcontra
      rw [Bool.and_eq_true] at hcontra
      have hmem : lp.1 ∈ catalog_keys := List.elem_iff.mp hcontra.1
      have hk : locales_to_keep.contains lp.1 = true := List.elem_iff.mpr (hall _ hmem)
      rw [hk] at hcontra
      exact absurd hcontra.2 (by decide)
    rw [hnil]
    rfl

/-- Witness for C1 on the real catalog keys: "fr" is purgeable when only
"en" is kept, while a locale outside the catalog is never yielded. -/
theorem purge_decision_iff_witness :
    localization_paths native_locale_names_keys ["en"]
      [("fr", "/usr/share/locale/fr/foo.mo"), ("en", "/usr/share/locale/en/foo.mo"), ("xx", "/a")] =
      .ok ["/usr/share/locale/fr/foo.mo"] :=
  ((purge_decision_iff native_locale_names_keys ["en"]
      [("fr", "/usr/share/locale/fr/foo.mo"), ("en", "/usr/share/locale/en/foo.mo"), ("xx", "/a")]
      (by decide)).1).trans (by decide)

/-!  C6.  -/

/-- C6: with an empty keep-set the purge planner always fails with the
empty-keep-set error, whatever the catalog keys and however many pairs
were discovered; it never returns an empty-but-valid path sequence. -/
theorem localization_paths_empty_keep (catalog_keys : List String)
    (discovered : List (String × String)) :
    localization_paths catalog_keys [] discovered = .error "Found no locales to keep" := rfl

/-!  C10.  -/

/-- C10: when /var/run/yum.pid exists, yum_clean fails immediately with the
currently-running message; the outcome is independent of whether the yum
executable exists, of every directory-size measurement and of the child
process stream and exit status, so no process is ever launched. -/
theorem yum_clean_pid_guard (exe_found : Bool) (getsizedir : Nat → Int)
    (lines : List String) (returncode : Int) :
    yum_clean true exe_found getsizedir lines returncode =
      .error "Yum cannot be cleaned because it is currently running.  Close it, and try again." := rfl

/-!  C8.  -/

/-- C8: evaluating a well-formed location node whose resolved base
directory does not exist yields the empty sequence for the node and all of
its descendants, and raises no error. -/
theorem handle_path_missing_dir_empty (fs : Fs) (path : String)
    (nodeName location filterAttr : String) (childNodes : List XmlNode)
    (hname : nodeName = "path") (hloc : location ≠ "")
    (hdir : fs.isdir (resolve path location) = false) :
    handle_path fs path (XmlNode.mk .element nodeName location filterAttr childNodes) = .ok [] := by
  subst hname
  unfold handle_path
  simp [hloc, hdir]

/-- Witness for C8: a node pointing at a directory the filesystem lacks,
with children, evaluates to the empty sequence. -/
theorem handle_path_missing_dir_empty_witness :
    handle_path ⟨fun _ => false, fun _ => []⟩ ""
      (XmlNode.mk .element "path" "/usr/share/locale" ""
        [XmlNode.mk .element "path" "child" "*.mo" []]) = .ok [] :=
  handle_path_missing_dir_empty _ _ _ _ _ _ rfl (by decide) rfl

/-!  C7.  -/

/-- C7 counterexample: a well-formed location node declaring the filter
"foo" (zero wildcard markers) evaluates to the empty sequence, not to a
malformed-filter error, when its resolved directory does not exist: the
source tests os.path.isdir before it inspects the filter, so the claim
that such a node always fails is false. -/
theorem handle_path_malformed_filter_counterexample :
    handle_path ⟨fun _ => false, fun _ => []⟩ ""
      (XmlNode.mk .element "path" "/opt" "foo" []) = .ok [] := by decide

/-- C7 amended: a rule node that declares a non-empty filter pattern whose
wildcard count differs from one is rejected at evaluation time with the
malformed-filter error, provided the node passes the structural checks and
its resolved base directory exists; when the directory does not exist the
node instead short-circuits to an empty result before the filter is
inspected. -/
theorem handle_path_malformed_filter (fs : Fs) (path : String)
    (nodeName location filterAttr : String) (childNodes : List XmlNode)
    (hname : nodeName = "path") (hloc : location ≠ "")
    (hdir : fs.isdir (resolve path location) = true)
    (hfil : filterAttr ≠ "") (hcount : filterAttr.data.count '*' ≠ 1) :
    handle_path fs path (XmlNode.mk .element nodeName location filterAttr childNodes) =
      .error ("Filter string '" ++ filterAttr ++ "' must contain the placeholder * exactly once") := by
  subst hname
  have hfd : filterAttr.data.isEmpty = false :=
    List.isEmpty_eq_false.mpr (string_data_ne_nil hfil)
  unfold handle_path
  simp [hloc, hdir, hfd, hcount]

/-- Witness for the amended C7: a node with filter "foo" over an existing
directory is rejected with the malformed-filter error. -/
theorem handle_path_malformed_filter_witness :
    handle_path ⟨fun _ => true, fun _ => []⟩ ""
      (XmlNode.mk .element "path" "/opt" "foo" []) =
      .error "Filter string 'foo' must contain the placeholder * exactly once" :=
  (handle_path_malformed_filter ⟨fun _ => true, fun _ => []⟩ "" "path" "/opt" "foo" []
    rfl (by decide) rfl (by decide) (by decide)).trans (by decide)

/-!  C4.  -/

/-- C4 counterexample: a run of the apt scanner whose child process exits
with failure status 1 and whose stream contains no fatal line still
returns the accumulated byte total instead of failing: apt_autoclean has
no post-exit status check at all. -/
theorem apt_autoclean_ignores_exit_status :
    apt_autoclean true ["Del foo 1.0 [1165kB]"] 1 = .ok 1165000 := by decide

/-!  C2.  -/

/-- The scan loop of `apt_autoclean` adds up the per-line byte
contributions when no fatal line occurs and every matched token converts. -/
theorem apt_scan_loop_sum (lines : List String) (total : Nat)
    (h1 : ∀ l ∈ lines, ("E: ".data).isPrefixOf l.data = false)
    (h2 : ∀ l ∈ lines, (del_match l).all (fun t => (human_to_bytes (upperStr t)).isSome) = true) :
    apt_scan_loop lines total = .ok (total + (lines.map line_bytes).sum) := by
  induction lines generalizing total with
  | nil => simp [apt_scan_loop]
  | cons l ls ih =>
    have hl1 := h1 l (List.mem_cons_self l ls)
    have hl2 := h2 l (List.mem_cons_self l ls)
    have ih' : ∀ t, apt_scan_loop ls t = .ok (t + (ls.map line_bytes).sum) :=
      fun t => ih t (fun x hx => h1 x (List.mem_cons_of_mem l hx))
        (fun x hx => h2 x (List.mem_cons_of_mem l hx))
    unfold apt_scan_loop
    simp only [hl1, Bool.false_eq_true, if_false]
    cases hdm : del_match l with
    | none =>
      rw [ih' total]
      simp [line_bytes, hdm]
    | some tok =>
      rw [hdm] at hl2
      simp only [Option.all_some] at hl2
      obtain ⟨b, hb⟩ := Option.isSome_iff_exists.mp hl2
      simp only [hb]
      rw [ih' (total + b)]
      simp [line_bytes, hdm, hb, Nat.add_assoc]

/-- C2: driving apt_autoclean over the single line "Del foo 1.0 [1165kB]"
with exit code 0 returns exactly 1165 * 1000 bytes (the token is
uppercased and converted decimally), and in general the returned total is
the sum of the converted size tokens of every line matching the Del
pattern. -/
theorem apt_autoclean_del_total (lines : List String) (returncode : Int)
    (h1 : ∀ l ∈ lines, ("E: ".data).isPrefixOf l.data = false)
    (h2 : ∀ l ∈ lines, (del_match l).all (fun t => (human_to_bytes (upperStr t)).isSome) = true) :
    apt_autoclean true lines returncode = .ok ((lines.map line_bytes).sum) ∧
    apt_autoclean true ["Del foo 1.0 [1165kB]"] 0 = .ok (1165 * 1000) := by
  constructor
  · show apt_scan_loop lines 0 = _
    rw [apt_scan_loop_sum lines 0 h1 h2]
    simp
  · decide

/-- Witness for C2 at the concrete stream of the claim. -/
theorem apt_autoclean_del_total_witness :
    apt_autoclean true ["Del foo 1.0 [1165kB]"] 0 = .ok (1165 * 1000) :=
  (apt_autoclean_del_total ["Del foo 1.0 [1165kB]"] 0 (by decide) (by decide)).2

/-!  C3.  -/

/-- The scan loop of `apt_autoclean` aborts with the first fatal line and
discards every byte accumulated before it. -/
theorem apt_scan_loop_fatal (pre post : List String) (line : String) (total : Nat)
    (hline : ("E: ".data).isPrefixOf line.data = true)
    (hpre1 : ∀ l ∈ pre, ("E: ".data).isPrefixOf l.data = false)
    (hpre2 : ∀ l ∈ pre, (del_match l).all (fun t => (human_to_bytes (upperStr t)).isSome) = true) :
    apt_scan_loop (pre ++ line :: post) total = .error line := by
  induction pre generalizing total with
  | nil =>
    unfold apt_scan_loop
    simp [hline]
  | cons l ls ih =>
    have hl1 := hpre1 l (List.mem_cons_self l ls)
    have hl2 := hpre2 l (List.mem_cons_self l ls)
    have ih' : ∀ t, apt_scan_loop (ls ++ line :: post) t = .error line :=
      fun t => ih t (fun x hx => hpre1 x (List.mem_cons_of_mem l hx))
        (fun x hx => hpre2 x (List.mem_cons_of_mem l hx))
    rw [List.cons_append]
    unfold apt_scan_loop
    simp only [hl1, Bool.false_eq_true, if_false]
    cases hdm : del_match l with
    | none => exact ih' total
    | some tok =>
      rw [hdm] at hl2
      simp only [Option.all_some] at hl2
      obtain ⟨b, hb⟩ := Option.isSome_iff_exists.mp hl2
      simp only [hb]
      exact ih' (total + b)

/-- The scan loop of `apt_autoremove` aborts with the first fatal line as
well. -/
theorem autoremove_loop_fatal (pre post : List String) (line : String) (total : Nat)
    (hline : ("E: ".data).isPrefixOf line.data = true)
    (hpre1 : ∀ l ∈ pre, ("E: ".data).isPrefixOf l.data = false)
    (hpre2 : ∀ l ∈ pre, (autoremove_match l).all (fun t => (human_to_bytes (upperStr t)).isSome) = true) :
    autoremove_loop (pre ++ line :: post) total = .error line := by
  induction pre generalizing total with
  | nil =>
    unfold autoremove_loop
    simp [hline]
  | cons l ls ih =>
    have hl1 := hpre1 l (List.mem_cons_self l ls)
    have hl2 := hpre2 l (List.mem_cons_self l ls)
    have ih' : ∀ t, autoremove_loop (ls ++ line :: post) t = .error line :=
      fun t => ih t (fun x hx => hpre1 x (List.mem_cons_of_mem l hx))
        (fun x hx => hpre2 x (List.mem_cons_of_mem l hx))
    rw [List.cons_append]
    unfold autoremove_loop
    simp only [hl1, Bool.false_eq_true, if_false]
    cases hdm : autoremove_match l with
    | none => exact ih' total
    | some tok =>
      rw [hdm] at hl2
      simp only [Option.all_some] at hl2
      obtain ⟨b, hb⟩ := Option.isSome_iff_exists.mp hl2
      simp only [hb]
      exact ih' (total + b)

/-- C3: for every stream containing a line that starts with "E: ", the apt
scanners (both the autoclean and the autoremove variant) fail carrying
exactly that line, and the byte total accumulated from any number of
preceding extraction lines is discarded. -/
theorem apt_fatal_error_line (pre post : List String) (line : String) (returncode : Int)
    (hline : ("E: ".data).isPrefixOf line.data = true)
    (hpre1 : ∀ l ∈ pre, ("E: ".data).isPrefixOf l.data = false)
    (hpre2 : ∀ l ∈ pre, (del_match l).all (fun t => (human_to_bytes (upperStr t)).isSome) = true)
    (hpre3 : ∀ l ∈ pre, (autoremove_match l).all (fun t => (human_to_bytes (upperStr t)).isSome) = true) :
    apt_autoclean true (pre ++ line :: post) returncode = .error line ∧
    apt_autoremove true (pre ++ line :: post) returncode = .error line := by
  constructor
  · show apt_scan_loop (pre ++ line :: post) 0 = .error line
    exact apt_scan_loop_fatal pre post line 0 hline hpre1 hpre2
  · show autoremove_loop (pre ++ line :: post) 0 = .error line
    exact autoremove_loop_fatal pre post line 0 hline hpre1 hpre3

/-- Witness for C3: a byte-extraction line followed by "E: something
failed" makes both scanners fail with that exact line. -/
theorem apt_fatal_error_line_witness :
    apt_autoclean true ["Del foo 1.0 [1165kB]", "E: something failed"] 0 =
      .error "E: something failed" ∧
    apt_autoremove true ["Del foo 1.0 [1165kB]", "E: something failed"] 0 =
      .error "E: something failed" :=
  apt_fatal_error_line ["Del foo 1.0 [1165kB]"] [] "E: something failed" 0
    (by decide) (by decide) (by decide) (by decide)

/-!  C4 (amended) and C9: the yum loop.  -/

/-- Characterization of the yum read loop on a stream without fatal lines:
it never aborts, makes one additional size measurement per lock-contention
line (re-baselining from it), and remembers the last line longer than two
characters. -/
theorem yum_loop_no_fatal (getsizedir : Nat → Int) (lines : List String) :
    ∀ (calls : Nat) (old_size : Int) (nb : String),
    (∀ l ∈ lines, containsSub l "You need to be root" = false) →
    (∀ l ∈ lines, containsSub l "Cannot remove rpmdb file" = false) →
    yum_loop getsizedir lines calls old_size nb =
      .ok (calls + yum_lock_count lines,
           (if yum_lock_count lines = 0 then old_size
            else getsizedir (calls + yum_lock_count lines - 1)),
           last_long_line lines nb) := by
  induction lines with
  | nil =>
    intro calls old_size nb _ _
    simp [yum_loop, yum_lock_count, last_long_line]
  | cons l ls ih =>
    intro calls old_size nb h1 h2
    have hl1 := h1 l (List.mem_cons_self l ls)
    have hl2 := h2 l (List.mem_cons_self l ls)
    have ih' : ∀ (c : Nat) (o : Int) (s : String),
        yum_loop getsizedir ls c o s =
          .ok (c + yum_lock_count ls,
               (if yum_lock_count ls = 0 then o else getsizedir (c + yum_lock_count ls - 1)),
               last_long_line ls s) :=
      fun c o s => ih c o s (fun x hx => h1 x (List.mem_cons_of_mem l hx))
        (fun x hx => h2 x (List.mem_cons_of_mem l hx))
    have hlast : last_long_line (l :: ls) nb =
        last_long_line ls (if l.length > 2 then l else nb) := rfl
    unfold yum_loop
    simp only [hl1, hl2, Bool.false_eq_true, if_false]
    by_cases hlock : containsSub l "Another app is currently holding" = true
    · rw [if_pos hlock, ih' (calls + 1) (getsizedir calls) (if l.length > 2 then l else nb),
        hlast]
      have hcount : yum_lock_count (l :: ls) = yum_lock_count ls + 1 := by
        simp [yum_lock_count, List.countP_cons, hlock]
      rw [hcount]
      by_cases hL : yum_lock_count ls = 0
      · rw [hL]
        norm_num
      · rw [if_neg hL, if_neg (by omega : ¬(yum_lock_count ls + 1 = 0))]
        have ha : calls + 1 + yum_lock_count ls = calls + (yum_lock_count ls + 1) := by omega
        rw [ha]
    · rw [if_neg hlock, ih' calls old_size (if l.length > 2 then l else nb), hlast]
      have hcount : yum_lock_count (l :: ls) = yum_lock_count ls := by
        simp [yum_lock_count, List.countP_cons, hlock]
      rw [hcount]

/-- C4 amended: the post-exit failure check belongs to the yum driver
alone: when no fatal-pattern line was observed and the exit status signals
failure, yum_clean fails carrying the last observed line longer than two
characters (the source's notion of the last non-blank line); the apt
scanner performs no post-exit check at all, and its result never depends
on the exit status. -/
theorem yum_post_exit_check (getsizedir : Nat → Int) (lines : List String) (returncode : Int)
    (h1 : ∀ l ∈ lines, containsSub l "You need to be root" = false)
    (h2 : ∀ l ∈ lines, containsSub l "Cannot remove rpmdb file" = false)
    (h3 : returncode > 0) :
    yum_clean false true getsizedir lines returncode = .error (last_long_line lines "") ∧
    (∀ (exe : Bool) (lines2 : List String) (rc1 rc2 : Int),
      apt_autoclean exe lines2 rc1 = apt_autoclean exe lines2 rc2) := by
  constructor
  · have hrun := yum_loop_no_fatal getsizedir lines 1 (getsizedir 0) "" h1 h2
    unfold yum_clean
    rw [hrun]
    simp [h3]
  · intro exe lines2 rc1 rc2
    rfl

/-- Witness for the amended C4: a failing exit status makes yum_clean carry
the last line longer than two characters (a trailing two-character line is
not remembered), while apt ignores the status. -/
theorem yum_post_exit_check_witness :
    yum_clean false true (fun _ => 0) ["error detail line", "ab"] 1 =
      .error "error detail line" :=
  ((yum_post_exit_check (fun _ => 0) ["error detail line", "ab"] 1
    (by decide) (by decide) (by decide)).1).trans (by decide)

/-- C9: with the pid guard passed, the executable present, a success exit
status and no fatal line, yum_clean returns measurement L minus
measurement L + 1 of the directory-size oracle, where measurement 0 is the
initial baseline and each of the L lock-contention lines re-baselines from
the next measurement; lock-contention lines never abort the run, and no
in-stream byte accumulation exists in this strategy. -/
theorem yum_clean_size_diff (getsizedir : Nat → Int) (lines : List String)
    (h1 : ∀ l ∈ lines, containsSub l "You need to be root" = false)
    (h2 : ∀ l ∈ lines, containsSub l "Cannot remove rpmdb file" = false) :
    yum_clean false true getsizedir lines 0 =
      .ok (getsizedir (yum_lock_count lines) - getsizedir (yum_lock_count lines + 1)) := by
  have hrun := yum_loop_no_fatal getsizedir lines 1 (getsizedir 0) "" h1 h2
  unfold yum_clean
  rw [hrun]
  have hcalls : 1 + yum_lock_count lines = yum_lock_count lines + 1 :=
    Nat.add_comm 1 (yum_lock_count lines)
  by_cases hL : yum_lock_count lines = 0
  · rw [hL]
    norm_num
  · rw [if_neg hL, hcalls]
    have hb : yum_lock_count lines + 1 - 1 = yum_lock_count lines := by omega
    rw [hb]
    norm_num

/-- Witness for C9: one lock-contention line makes the result the second
measurement minus the third. -/
theorem yum_clean_size_diff_witness :
    yum_clean false true (fun n => if n = 0 then 100 else if n = 1 then 80 else 30)
      ["Another app is currently holding the yum lock"] 0 = .ok 50 :=
  (yum_clean_size_diff (fun n => if n = 0 then 100 else if n = 1 then 80 else 30)
    ["Another app is currently holding the yum lock"] (by decide) (by decide)).trans (by decide)

/-!  C5: locale normalization.  -/

/-- A variant suffix (or nothing) satisfies the variant tail matcher. -/
theorem matchVariant_of_shape (g4 : List Char)
    (h : g4 = [] ∨ ∃ rest, g4 = '@' :: rest ∧ rest.all Char.isAlpha = true) :
    matchVariant g4 = true := by
  rcases h with rfl | ⟨rest, rfl, hr⟩
  · rfl
  · simp [matchVariant, hr]

/-- An encoding suffix followed by a variant suffix (either optional)
satisfies the encoding tail matcher. -/
theorem matchEncoding_of_shape (g3 g4 : List Char)
    (h3 : g3 = [] ∨ ∃ rest, g3 = '.' :: rest ∧ rest.all isEncChar = true)
    (h4 : g4 = [] ∨ ∃ rest, g4 = '@' :: rest ∧ rest.all Char.isAlpha = true) :
    matchEncoding (g3 ++ g4) = true := by
  have hv := matchVariant_of_shape g4 h4
  rcases h3 with rfl | ⟨rest, rfl, hr⟩
  · simp only [List.nil_append]
    rcases h4 with rfl | ⟨r4, rfl, hr4⟩
    · rfl
    · simp only [matchEncoding]
      rw [if_neg (by decide : ¬('@' = '.'))]
      exact hv
  · simp only [List.cons_append, matchEncoding]
    rw [if_pos trivial, dropWhile_append_all rest g4 isEncChar hr]
    rcases h4 with rfl | ⟨r4, rfl, hr4⟩
    · rfl
    · rw [List.dropWhile_cons, if_neg (by decide : ¬(isEncChar '@' = true))]
      exact hv

/-- A region suffix, an encoding suffix and a variant suffix (each
optional) satisfy the full post-core tail matcher. -/
theorem matchRegion_of_shape (g2 g3 g4 : List Char)
    (h2 : g2 = [] ∨ ∃ c rest, g2 = c :: rest ∧ (c = '_' ∨ c = '-') ∧
        2 ≤ rest.length ∧ rest.length ≤ 4 ∧ rest.all Char.isAlpha = true)
    (h3 : g3 = [] ∨ ∃ rest, g3 = '.' :: rest ∧ rest.all isEncChar = true)
    (h4 : g4 = [] ∨ ∃ rest, g4 = '@' :: rest ∧ rest.all Char.isAlpha = true) :
    matchRegion (g2 ++ (g3 ++ g4)) = true := by
  have he := matchEncoding_of_shape g3 g4 h3 h4
  rcases h2 with rfl | ⟨c, rest, rfl, hc, hlo, hhi, hall⟩
  · simp only [List.nil_append]
    unfold matchRegion
    rw [he, Bool.or_true]
  · simp only [List.cons_append]
    unfold matchRegion
    rw [Bool.or_eq_true]
    left
    simp only [regionHere]
    rw [Bool.and_eq_true]
    constructor
    · rcases hc with rfl | rfl <;> decide
    · have htry : tryRegion (rest ++ (g3 ++ g4)) rest.length = true := by
        unfold tryRegion
        rw [List.take_left, List.drop_left, hall, he]
        simp
      have hk : rest.length = 2 ∨ rest.length = 3 ∨ rest.length = 4 := by omega
      rcases hk with hk | hk | hk <;> rw [hk] at htry <;> simp [htry]

/-- The concatenated optional suffixes are either empty or start with one
of the four introducer characters. -/
theorem tail_head_shape (g2 g3 g4 : List Char)
    (h2 : g2 = [] ∨ ∃ c rest, g2 = c :: rest ∧ (c = '_' ∨ c = '-') ∧
        2 ≤ rest.length ∧ rest.length ≤ 4 ∧ rest.all Char.isAlpha = true)
    (h3 : g3 = [] ∨ ∃ rest, g3 = '.' :: rest ∧ rest.all isEncChar = true)
    (h4 : g4 = [] ∨ ∃ rest, g4 = '@' :: rest ∧ rest.all Char.isAlpha = true) :
    g2 ++ (g3 ++ g4) = [] ∨
    ∃ c r, g2 ++ (g3 ++ g4) = c :: r ∧ (c = '_' ∨ c = '-' ∨ c = '.' ∨ c = '@') := by
  rcases h2 with rfl | ⟨c, rest, rfl, hc, _, _, _⟩
  · rcases h3 with rfl | ⟨r3, rfl, _⟩
    · rcases h4 with rfl | ⟨r4, rfl, _⟩
      · left; rfl
      · right; exact ⟨'@', r4, rfl, by decide⟩
    · right; exact ⟨'.', r3 ++ g4, rfl, by decide⟩
  · right
    refine ⟨c, rest ++ (g3 ++ g4), rfl, ?_⟩
    rcases hc with rfl | rfl
    · decide
    · decide

/-- A string of the ISO-639-like shape is never the Klingon token. -/
theorem shape_ne_klingon (core t : List Char)
    (hlen : core.length = 2 ∨ core.length = 3)
    (hhead : t = [] ∨ ∃ c r, t = c :: r ∧ (c = '_' ∨ c = '-' ∨ c = '.' ∨ c = '@')) :
    String.mk (core ++ t) ≠ "klingon" := by
  intro he
  have hdata : core ++ t = "klingon".data := congrArg String.data he
  have hdrop : t = ("klingon".data).drop core.length := by
    rw [← hdata, List.drop_left]
  rcases hlen with h2 | h3
  · rw [h2] at hdrop
    have ht : t = ['i', 'n', 'g', 'o', 'n'] :=
      hdrop.trans (by decide)
    rcases hhead with rfl | ⟨c, r, hcons, hc⟩
    · exact absurd ht (by decide)
    · rw [hcons] at ht
      injection ht with hcv _
      rcases hc with rfl | rfl | rfl | rfl <;> exact absurd hcv (by decide)
  · rw [h3] at hdrop
    have ht : t = ['n', 'g', 'o', 'n'] :=
      hdrop.trans (by decide)
    rcases hhead with rfl | ⟨c, r, hcons, hc⟩
    · exact absurd ht (by decide)
    · rw [hcons] at ht
      injection ht with hcv _
      rcases hc with rfl | rfl | rfl | rfl <;> exact absurd hcv (by decide)

/-- C5: every raw locale string of the ISO-639-like shape (a 2-3 letter
lowercase core, an optional region/script suffix introduced by an
underscore or hyphen, an optional encoding suffix introduced by a dot and
an optional variant suffix introduced by an at sign) normalizes to exactly
its core segment. -/
theorem locale_to_language_core_segment (core g2 g3 g4 : List Char)
    (hlen : core.length = 2 ∨ core.length = 3)
    (hcore : core.all Char.isLower = true)
    (hg2 : g2 = [] ∨ ∃ c rest, g2 = c :: rest ∧ (c = '_' ∨ c = '-') ∧
        2 ≤ rest.length ∧ rest.length ≤ 4 ∧ rest.all Char.isAlpha = true)
    (hg3 : g3 = [] ∨ ∃ rest, g3 = '.' :: rest ∧ rest.all isEncChar = true)
    (hg4 : g4 = [] ∨ ∃ rest, g4 = '@' :: rest ∧ rest.all Char.isAlpha = true) :
    locale_to_language (String.mk (core ++ (g2 ++ (g3 ++ g4)))) = .ok (String.mk core) := by
  have hmr : matchRegion (g2 ++ (g3 ++ g4)) = true := matchRegion_of_shape g2 g3 g4 hg2 hg3 hg4
  have hhead := tail_head_shape g2 g3 g4 hg2 hg3 hg4
  have hkl := shape_ne_klingon core (g2 ++ (g3 ++ g4)) hlen hhead
  set t := g2 ++ (g3 ++ g4) with htdef
  simp only [locale_to_language]
  rw [if_neg hkl]
  rcases hlen with h2 | h3
  · have htake2 : (core ++ t).take 2 = core := by rw [← h2]; exact List.take_left core t
    have hdrop2 : (core ++ t).drop 2 = t := by rw [← h2]; exact List.drop_left core t
    have hfail : (((core ++ t).take 3).length == 3 && ((core ++ t).take 3).all Char.isLower
        && matchRegion ((core ++ t).drop 3)) = false := by
      rcases hhead with hnil | ⟨c, r, hcons, hc⟩
      · rw [hnil, List.append_nil, List.take_of_length_le (by omega), h2]
        rfl
      · rw [hcons]
        have h31 : (core ++ c :: r).take 3 = core ++ [c] := by
          rw [show (3 : Nat) = core.length + 1 by omega, List.take_append]
          rfl
        rw [h31]
        have hlow : c.isLower = false := by
          rcases hc with rfl | rfl | rfl | rfl <;> decide
        rw [List.all_append]
        simp [hlow]
    rw [hfail]
    simp only [Bool.false_eq_true, if_false]
    rw [htake2, hdrop2, h2, hcore, hmr]
    simp
  · have htake3 : (core ++ t).take 3 = core := by rw [← h3]; exact List.take_left core t
    have hdrop3 : (core ++ t).drop 3 = t := by rw [← h3]; exact List.drop_left core t
    rw [htake3, hdrop3, h3, hcore, hmr]
    simp

/-- Witness for C5 at the two example strings of the claim. -/
theorem locale_to_language_core_segment_witness :
    locale_to_language "en_US.UTF-8" = .ok "en" ∧
    locale_to_language "pt_BR@euro" = .ok "pt" := by
  constructor
  · have h := locale_to_language_core_segment ['e', 'n'] ['_', 'U', 'S']
      ['.', 'U', 'T', 'F', '-', '8'] [] (Or.inl rfl) (by decide)
      (Or.inr ⟨'_', ['U', 'S'], rfl, Or.inl rfl, by decide, by decide, by decide⟩)
      (Or.inr ⟨['U', 'T', 'F', '-', '8'], rfl, by decide⟩) (Or.inl rfl)
    have hs : String.mk (['e', 'n'] ++ (['_', 'U', 'S'] ++ (['.', 'U', 'T', 'F', '-', '8'] ++ []))) =
        "en_US.UTF-8" := by decide
    rw [hs] at h
    exact h.trans (by decide)
  · have h := locale_to_language_core_segment ['p', 't'] ['_', 'B', 'R'] []
      ['@', 'e', 'u', 'r', 'o'] (Or.inl rfl) (by decide)
      (Or.inr ⟨'_', ['B', 'R'], rfl, Or.inl rfl, by decide, by decide, by decide⟩)
      (Or.inl rfl) (Or.inr ⟨['e', 'u', 'r', 'o'], rfl, by decide⟩)
    have hs : String.mk (['p', 't'] ++ (['_', 'B', 'R'] ++ ([] ++ ['@', 'e', 'u', 'r', 'o']))) =
        "pt_BR@euro" := by decide
    rw [hs] at h
    exact h.trans (by decide)
